import Mathlib

/-!
Verification of the Maildir folder store and repository of offlineimap
(`offlineimap/folder/Maildir.py` and `offlineimap/repository/Maildir.py`),
via a shallow embedding of the relevant operations.

Pure string manipulation (the regexes `uidmatchre`, `foldermatchre`,
`flagmatchre`, `os.path` helpers, Python `str.split`/`str.replace`) is
modelled on `List Char`.  Filesystem interaction is modelled with explicit
event traces and oracle environments standing for the state of the disk at
each system call.  The `md5.new(...).hexdigest()` fingerprint of the
folder's visible name (computed by the external `md5` library module) is
abstracted as an arbitrary input string `fp`: the code only ever compares
it for equality with the `,FMD5=` field parsed from a filename.
-/

namespace OfflineImap

abbrev Chars := List Char

/-- Model of `os.path.basename`: the part of a path after the last `/`
(Python `os.path.split(p)[1]`, i.e. `p[i+1:]` for `i` the last slash). -/
def basenameCh (l : Chars) : Chars :=
  (l.reverse.takeWhile (fun c => c != '/')).reverse

/-- Numeric value of a list of decimal digits, as Python `long(...)` reads a
digit string. -/
def digitsVal (l : Chars) : Nat :=
  l.foldl (fun a c => a * 10 + (c.toNat - 48)) 0

/-- Model of `uidmatchre.search`, regex `,U=(\d+)`: find the leftmost
occurrence of `,U=` that is followed by at least one decimal digit and
return the value of the maximal digit run after it. -/
def findUid : Chars → Option Nat
  | [] => none
  | ',' :: rest =>
    match rest with
    | 'U' :: '=' :: rest2 =>
      match rest2.takeWhile Char.isDigit with
      | [] => findUid rest
      | ds => some (digitsVal ds)
    | _ => findUid rest
  | _ :: rest => findUid rest

/-- Lowercase-hex character class `[0-9a-f]`. -/
def isHexLower (c : Char) : Bool := c.isDigit || ('a' ≤ c && c ≤ 'f')

/-- Model of `foldermatchre.search`, regex `,FMD5=([0-9a-f]{32})`: find the
leftmost occurrence of `,FMD5=` followed by at least 32 lowercase-hex
characters and return exactly those 32 characters. -/
def findFMD5 : Chars → Option Chars
  | [] => none
  | ',' :: rest =>
    match rest with
    | 'F' :: 'M' :: 'D' :: '5' :: '=' :: rest2 =>
      let h := (rest2.takeWhile isHexLower).take 32
      if h.length = 32 then some h else findFMD5 rest
    | _ => findFMD5 rest
  | _ :: rest => findFMD5 rest

/-- Helper for `flagmatchre` (`:.*2,([A-Z]+)`): the greedy `.*` selects the
last occurrence of `2,` that is followed by at least one uppercase letter;
the group is the maximal uppercase run after it. -/
def lastFlagRun : Chars → Option Chars
  | [] => none
  | '2' :: rest =>
    match rest with
    | ',' :: c :: rest2 =>
      if c.isUpper then
        match lastFlagRun rest with
        | some r => some r
        | none => some ((c :: rest2).takeWhile Char.isUpper)
      else lastFlagRun rest
    | _ => lastFlagRun rest
  | _ :: rest => lastFlagRun rest

lemma length_dropWhile_le' {α : Type} (p : α → Bool) (l : List α) :
    (l.dropWhile p).length ≤ l.length :=
  (List.dropWhile_sublist p).length_le

/-- Model of `flagmatchre.search`, regex `:.*2,([A-Z]+)`: a match starts at
some `:`; `.` does not cross a newline, so the `2,<run>` must occur in the
newline-free stretch after that colon.  `re.search` takes the leftmost
viable colon, and within it the greedy `.*` takes the last viable `2,`.
When a colon's stretch holds no `2,<run>`, no later colon on the same line
can match either (its stretch is a suffix), so the scan may simply continue
with the next character. -/
def findFlags : Chars → Option Chars
  | [] => none
  | ':' :: rest =>
    match lastFlagRun (rest.takeWhile (fun c => c != '\n')) with
    | some r => some r
    | none => findFlags rest
  | _ :: rest => findFlags rest

/-- Model of `re.sub('2,[A-Z]*', '', s)`: scanning left to right, every
occurrence of `2,` together with the maximal (possibly empty) uppercase run
after it is removed.  The `Bool` is true while skipping the uppercase run
of a match in progress; a non-uppercase character ends the run and is
re-examined as a possible start of the next `2,` occurrence (`2` itself is
not uppercase, so both modes treat it alike). -/
def subFlag : Chars → Bool → Chars
  | [], _ => []
  | '2' :: ',' :: rest2, _ => subFlag rest2 true
  | '2' :: rest, _ => '2' :: subFlag rest false
  | c :: rest, true =>
    if c.isUpper then subFlag rest true
    else c :: subFlag rest false
  | c :: rest, false => c :: subFlag rest false

/-- Python `list.sort()` on a list of flag characters (ascending; stability
is irrelevant because equal characters are identical). -/
def sortChars (l : Chars) : Chars := List.insertionSort (fun a b => a ≤ b) l

/-- The flag list `_scanfolder` computes for a message name: the flag group
of `flagmatchre` (or `[]` when there is no match), sorted. -/
def flagsOf (name : Chars) : Chars := sortChars ((findFlags name).getD [])

/-! ### Association lists modelling Python dicts (lookup / assignment / del) -/

def alookup {κ ν : Type} [DecidableEq κ] (m : List (κ × ν)) (k : κ) : Option ν :=
  match m with
  | [] => none
  | p :: rest => if p.1 = k then some p.2 else alookup rest k

def ainsert {κ ν : Type} [DecidableEq κ] (k : κ) (v : ν) :
    List (κ × ν) → List (κ × ν)
  | [] => [(k, v)]
  | p :: rest => if p.1 = k then (k, v) :: rest else p :: ainsert k v rest

def aremove {κ ν : Type} [DecidableEq κ] (m : List (κ × ν)) (k : κ) :
    List (κ × ν) :=
  m.filter (fun p => p.1 != k)

def amodify {κ ν : Type} [DecidableEq κ] (m : List (κ × ν)) (k : κ) (f : ν → ν) :
    List (κ × ν) :=
  m.map (fun p => if p.1 = k then (p.1, f p.2) else p)

/-! ### The folder store (`offlineimap/folder/Maildir.py`) -/

/-- One entry of `MaildirFolder.messagelist`:
`{'uid': uid, 'flags': flags, 'filename': file}`. -/
structure MsgRec where
  uid : Int
  flags : Chars
  filename : String
deriving DecidableEq, Repr

/-- Resolution of a message name against this folder's fingerprint, as in
`_scanfolder`: the embedded uid counts only when a `,FMD5=` group is present
and equals the folder's fingerprint and a `,U=` group is present; otherwise
the file gets a fresh negative placeholder (signalled here by `none`). -/
def resolveUid (fp : Chars) (name : Chars) : Option Nat :=
  match findFMD5 name with
  | none => none
  | some g => if g = fp then findUid name else none

/-- The record `_scanfolder` stores for file `file` under uid `u`. -/
def mkRec (u : Int) (file : String) : MsgRec :=
  { uid := u, flags := flagsOf (basenameCh file.data), filename := file }

/-- One iteration of the `for file in files` loop of `_scanfolder`:
state is (next placeholder counter, dict built so far). -/
def scanStep (fp : Chars) (acc : Int × List (Int × MsgRec)) (file : String) :
    Int × List (Int × MsgRec) :=
  match resolveUid fp (basenameCh file.data) with
  | some u => (acc.1, ainsert (Int.ofNat u) (mkRec (Int.ofNat u) file) acc.2)
  | none => (acc.1 - 1, ainsert acc.1 (mkRec acc.1 file) acc.2)

/-- The file list `_scanfolder` iterates over: full paths of the entries of
the `new` and the `cur` partition, in listing order. -/
def scanFiles (fullname : String) (newL curL : List String) : List String :=
  newL.map (fun n => fullname ++ "/new/" ++ n) ++
    curL.map (fun n => fullname ++ "/cur/" ++ n)

/-- `MaildirFolder._scanfolder`, for a folder with full name `fullname` and
folder-name fingerprint `fp`, when `os.listdir` returns `newL` in `new` and
`curL` in `cur`.  The placeholder counter `nouidcounter` starts at `-1`. -/
def scanfolder (fp : Chars) (fullname : String) (newL curL : List String) :
    List (Int × MsgRec) :=
  ((scanFiles fullname newL curL).foldl (scanStep fp) (-1, [])).2

/-- Filesystem calls performed by the folder store, recorded as a trace. -/
inductive FsEvent
  | unlinkF (p : String)
  | rescanEv
  | renameF (src dst : String)
  | writeF (p content : String)
  | linkF (src dst : String)
deriving DecidableEq, Repr

/-- Result of `savemessageflags`: the updated `messagelist`, the filesystem
trace, and whether a `KeyError` was raised (uid absent from the cache). -/
structure SmfResult where
  cache : List (Int × MsgRec)
  events : List FsEvent
  raised : Bool
deriving DecidableEq, Repr

/-- `MaildirFolder.savemessageflags(uid, flags)`.  The head of the split of
the old filename is discarded (the code overwrites `newpath` immediately);
the tail is the basename.  The info string is the suffix of the basename
from its first `:` (or `:` if there is none); every `2,[A-Z]*` occurrence
is stripped from it and the sorted new flag string is appended.  A rename
happens only when the recomposed full name differs from the old one. -/
def savemessageflags (fullname : String) (st : List (Int × MsgRec))
    (uid : Int) (flags : Chars) : SmfResult :=
  match alookup st uid with
  | none => ⟨st, [], true⟩
  | some msg =>
    let name0 := basenameCh msg.filename.data
    let newpath : Chars :=
      fullname.data ++ (if 'S' ∈ flags then "/cur".data else "/new".data)
    let stem := name0.takeWhile (fun c => c != ':')
    let restC := name0.dropWhile (fun c => c != ':')
    let infostr0 : Chars := if restC.isEmpty then [':'] else restC
    let sorted := sortChars flags
    let newname := stem ++ subFlag infostr0 false ++ '2' :: ',' :: sorted
    let newfilename := String.mk (newpath ++ '/' :: newname)
    if newfilename = msg.filename then ⟨st, [], false⟩
    else
      ⟨ainsert uid { msg with flags := sorted, filename := newfilename } st,
        [FsEvent.renameF msg.filename newfilename], false⟩

/-- Disk oracle for one `deletemessage` call: whether the first `os.unlink`
succeeds, what `_scanfolder` would return at the moment of the rescan, and
whether the retried `os.unlink` succeeds. -/
structure DelEnv where
  firstUnlinkOk : Bool
  rescanList : List (Int × MsgRec)
  secondUnlinkOk : Bool

/-- Result of `deletemessage`: whether an uncaught `OSError` escaped, the
resulting `messagelist`, and the filesystem trace (failed unlink attempts
included). -/
structure DelResult where
  raised : Bool
  cache : List (Int × MsgRec)
  events : List FsEvent
deriving DecidableEq, Repr

/-- `MaildirFolder.deletemessage(uid)`.  An absent uid returns silently.
Otherwise the cached location is unlinked; on `OSError` the folder is
rescanned and, if the uid is still listed, the unlink is retried at the new
location; an `OSError` of the retried unlink is NOT caught, so in that case
the `del self.messagelist[uid]` line is never reached. -/
def deletemessage (st : List (Int × MsgRec)) (uid : Int) (env : DelEnv) :
    DelResult :=
  match alookup st uid with
  | none => ⟨false, st, []⟩
  | some msg =>
    if env.firstUnlinkOk then
      ⟨false, aremove st uid, [FsEvent.unlinkF msg.filename]⟩
    else
      match alookup env.rescanList uid with
      | some msg2 =>
        if env.secondUnlinkOk then
          ⟨false, aremove st uid,
            [FsEvent.unlinkF msg.filename, FsEvent.rescanEv,
              FsEvent.unlinkF msg2.filename]⟩
        else
          ⟨true, st,
            [FsEvent.unlinkF msg.filename, FsEvent.rescanEv,
              FsEvent.unlinkF msg2.filename]⟩
      | none =>
        ⟨false, aremove st uid,
          [FsEvent.unlinkF msg.filename, FsEvent.rescanEv]⟩

/-- Environment for `savemessage`: the `gettimeseq()` oracle indexed by the
attempt number, `os.getpid()`, `socket.gethostname()`, and the
`os.path.exists` oracle for staging-name collision checks. -/
structure SaveEnv where
  seq : Nat → Nat × Nat
  pid : Nat
  host : String
  tmpHas : String → Bool

/-- The staging filename built on a given attempt:
`'%d_%d.%d.%s,U=%d,FMD5=%s'`. -/
def mkMsgName (env : SaveEnv) (uid : Int) (fp : Chars) (attempt : Nat) :
    String :=
  let t := env.seq attempt
  String.mk ((Nat.repr t.1).data ++ '_' :: (Nat.repr t.2).data ++
    '.' :: (Nat.repr env.pid).data ++ '.' :: env.host.data ++
    ",U=".data ++ (Int.repr uid).data ++ ",FMD5=".data ++ fp)

/-- The `while 1` collision-retry loop of `savemessage`: at most 16 names
are tried (attempt counters 0..15); when the counter exceeds 15 an
`IOError` is raised (`none`).  `fuel` bounds the recursion and is called
with 17, which the attempt bound makes exact. -/
def nameLoopAux (env : SaveEnv) (uid : Int) (fp : Chars) (tmpdir : String) :
    Nat → Nat → Option String
  | 0, _ => none
  | fuel + 1, attempts =>
    if attempts > 15 then none
    else
      let n := mkMsgName env uid fp attempts
      if env.tmpHas (tmpdir ++ "/" ++ n) then
        nameLoopAux env uid fp tmpdir fuel (attempts + 1)
      else some n

/-- Result of `savemessage`: the returned uid, the updated `messagelist`,
the filesystem trace, and whether an error escaped. -/
structure SaveResult where
  ret : Int
  cache : List (Int × MsgRec)
  events : List FsEvent
  raised : Bool
deriving Repr

/-- `MaildirFolder.savemessage(uid, content, flags)`.  A negative uid is
returned unchanged before any filesystem access; a uid already cached
delegates to `savemessageflags`; otherwise a unique staging name is found,
the content is written to `tmp`, hard-linked into `cur` (if the flags mark
the message seen) or `new`, the staging file is removed, the cache is
updated, and flags are applied via `savemessageflags`. -/
def savemessage (fullname : String) (fp : Chars) (env : SaveEnv)
    (st : List (Int × MsgRec)) (uid : Int) (content : String)
    (flags : Chars) : SaveResult :=
  if uid < 0 then ⟨uid, st, [], false⟩
  else if (alookup st uid).isSome then
    let r := savemessageflags fullname st uid flags
    ⟨uid, r.cache, r.events, r.raised⟩
  else
    let newdir := fullname ++ (if 'S' ∈ flags then "/cur" else "/new")
    let tmpdir := fullname ++ "/tmp"
    match nameLoopAux env uid fp tmpdir 17 0 with
    | none => ⟨uid, st, [], true⟩
    | some messagename =>
      let tmpname := String.mk (messagename.data.takeWhile (fun c => c != ','))
      let tmpPath := tmpdir ++ "/" ++ tmpname
      let dstPath := newdir ++ "/" ++ messagename
      let st1 := ainsert uid ⟨uid, [], dstPath⟩ st
      let r := savemessageflags fullname st1 uid flags
      ⟨uid, r.cache,
        FsEvent.writeF tmpPath content :: FsEvent.linkF tmpPath dstPath ::
          FsEvent.unlinkF tmpPath :: r.events,
        r.raised⟩

/-! ### The repository (`offlineimap/repository/Maildir.py`) -/

/-- Directories are paths, represented as lists of name segments below the
filesystem root; the filesystem is the list of directories that exist (this
model contains only directories, which is all the repository code consults
via `os.path.isdir`). -/
abbrev Path := List String
abbrev FS := List Path

/-- Python `str.split('/')` on the character level. -/
def splitSlash : Chars → List Chars
  | [] => [[]]
  | c :: rest =>
    match splitSlash rest with
    | [] => [[]]
    | h :: t => if c = '/' then [] :: h :: t else (c :: h) :: t

/-- Python `foldername.split('/')`. -/
def pySplitSlash (s : String) : List String := (splitSlash s.data).map String.mk

/-- Model of `os.path.normpath` on an absolute path's segments, as used by
`os.path.abspath`: empty and `.` segments vanish, `..` removes the previous
segment (or nothing at the root). -/
def normSegs (segs : List String) : Path :=
  segs.foldl
    (fun acc s =>
      if s = "" ∨ s = "." then acc
      else if s = ".." then acc.dropLast
      else acc ++ [s]) []

/-- Substring test, Python `haystack.find(needle) != -1`. -/
def containsSub (pat l : Chars) : Bool :=
  l.tails.any (fun t => pat.isPrefixOf t)

/-- The component sanity check of `makefolder`: with `/` as separator no
path component may be a reserved partition name. -/
def reservedCheck (sep : String) (foldername : String) : Bool :=
  sep = "/" &&
    (pySplitSlash foldername).any (fun c => c = "new" || c = "cur" || c = "tmp")

/-- The traversal sanity check of `makefolder`:
`foldername.find('../') == -1` violated. -/
def traversalCheck (foldername : String) : Bool :=
  containsSub "../".data foldername.data

/-- The absolute-name sanity check of `makefolder`:
`foldername.startswith('/')`. -/
def rootCheck (foldername : String) : Bool :=
  "/".data.isPrefixOf foldername.data

/-- Filesystem mutations performed by the repository. -/
inductive RepoEvent
  | mkdirE (p : Path)
deriving DecidableEq, Repr

inductive MkOutcome
  | ok
  | validationError
  | osError
deriving DecidableEq, Repr

structure MkResult where
  outcome : MkOutcome
  fs : FS
  events : List RepoEvent
deriving DecidableEq, Repr

/-- `os.makedirs(p)`: create every missing ancestor, then `p` itself;
raises `OSError` with `errno == 17` (`EEXIST`) when `p` already exists.
Returns the new filesystem, the mkdir trace and the errno, if any. -/
def makedirs (fs : FS) (p : Path) : FS × List RepoEvent × Option Nat :=
  if p ∈ fs then (fs, [], some 17)
  else
    let r := (List.range (p.length + 1)).foldl
      (fun (acc : FS × List RepoEvent) i =>
        let pre := p.take i
        if pre ∈ acc.1 then acc
        else (acc.1 ++ [pre], acc.2 ++ [RepoEvent.mkdirE pre]))
      (fs, [])
    (r.1, r.2, none)

/-- `os.mkdir(p)`: raises `EEXIST` (17) when `p` exists, `ENOENT` (2) when
the parent is missing. -/
def mkdir (fs : FS) (p : Path) : FS × List RepoEvent × Option Nat :=
  if p ∈ fs then (fs, [], some 17)
  else if p.dropLast ∈ fs then (fs ++ [p], [RepoEvent.mkdirE p], none)
  else (fs, [], some 2)

/-- The `os.path.join(self.root, foldername)` of `makefolder`: a foldername
beginning with `/` replaces the root entirely. -/
def joinRoot (root : Path) (foldername : String) : List String :=
  if rootCheck foldername then pySplitSlash foldername
  else root ++ pySplitSlash foldername

/-- The directory-creation phase of `makefolder`, after the sanity checks:
`os.makedirs(full_path)` with `EEXIST` tolerated when the target is a
directory, then `os.mkdir` of the `cur`, `new`, `tmp` partitions, each
tolerating `EEXIST` provided `full_path` is a directory (the code checks
`full_path`, not the partition path, in the handler). -/
def makefolderCreate (fs : FS) (full_path : Path) : MkResult :=
  let m := makedirs fs full_path
  let afterTop : Option (FS × List RepoEvent) :=
    match m.2.2 with
    | none => some (m.1, m.2.1)
    | some e => if e = 17 ∧ full_path ∈ fs then some (m.1, m.2.1) else none
  match afterTop with
  | none => ⟨MkOutcome.osError, m.1, m.2.1⟩
  | some (fs1, evs1) =>
    let step := fun (acc : Option (FS × List RepoEvent)) (sub : String) =>
      match acc with
      | none => none
      | some (f, e) =>
        let r := mkdir f (full_path ++ [sub])
        match r.2.2 with
        | none => some (r.1, e ++ r.2.1)
        | some err =>
          if err = 17 ∧ full_path ∈ f then some (r.1, e ++ r.2.1) else none
    match ["cur", "new", "tmp"].foldl step (some (fs1, evs1)) with
    | some (fs2, evs2) => ⟨MkOutcome.ok, fs2, evs2⟩
    | none => ⟨MkOutcome.osError, fs1, evs1⟩

/-- `MaildirRepository.makefolder(foldername)` (UI notification omitted).
After the dryrun gate the three `assert` sanity checks run, in source
order, before any filesystem access; then the creation phase. -/
def makefolder (sep : String) (root : Path) (dryrun : Bool) (fs : FS)
    (foldername : String) : MkResult :=
  if dryrun then ⟨MkOutcome.ok, fs, []⟩
  else if reservedCheck sep foldername then ⟨MkOutcome.validationError, fs, []⟩
  else if traversalCheck foldername then ⟨MkOutcome.validationError, fs, []⟩
  else if rootCheck foldername then ⟨MkOutcome.validationError, fs, []⟩
  else makefolderCreate fs (normSegs (joinRoot root foldername))

/-- `os.listdir`: the immediate child names of `p`, in filesystem order,
without duplicates. -/
def listdir (fs : FS) (p : Path) : List String :=
  (fs.filterMap
      (fun d =>
        if d.length = p.length + 1 ∧ d.take p.length = p then
          (d.drop p.length).head?
        else none)).foldl
    (fun acc s => if s ∈ acc then acc else acc ++ [s]) []

/-- `MaildirRepository._getfolders_scandir(root, extension)`: names of the
discovered Maildir folders, in emission order.  A directory is a folder
when its `cur`, `new` and `tmp` subdirectories all exist; with `/` as
separator every non-special subdirectory is scanned recursively.  `fuel`
bounds the recursion depth and is exact whenever it exceeds the depth of
the filesystem. -/
def scandirAux (sep : String) (fs : FS) (root : Path) :
    Nat → Option String → List String
  | 0, _ => []
  | fuel + 1, extension =>
    let toppath :=
      match extension with
      | some e => root ++ pySplitSlash e
      | none => root
    (listdir fs toppath ++ [""]).foldl
      (fun acc dirname =>
        if dirname = "" ∧ extension ≠ none then acc
        else if dirname = "cur" ∨ dirname = "new" ∨ dirname = "tmp" then acc
        else
          let fullname := toppath ++ (if dirname = "" then [] else [dirname])
          if fullname ∉ fs then acc
          else
            let foldername :=
              match extension with
              | some e => e ++ "/" ++ dirname
              | none => dirname
            let acc1 :=
              if fullname ++ ["cur"] ∈ fs ∧ fullname ++ ["new"] ∈ fs ∧
                  fullname ++ ["tmp"] ∈ fs then
                acc ++ [foldername]
              else acc
            if sep = "/" ∧ dirname ≠ "" then
              acc1 ++ scandirAux sep fs root fuel (some foldername)
            else acc1)
      []

/-- `getfolders()` on a fresh (or forgotten) cache. -/
def getfolders (sep : String) (fs : FS) (root : Path) (fuel : Nat) :
    List String :=
  scandirAux sep fs root fuel none

/-! ### The move-propagation engine (`MaildirRepository.syncmoves`) -/

/-- Python `str.replace(pat, rep)` for a non-empty pattern: non-overlapping
occurrences replaced left to right.  Each step consumes at least one
character, so a fuel of the input length makes the recursion exact. -/
def replaceGo (pat rep : Chars) : Nat → Chars → Chars
  | 0, l => l
  | _ + 1, [] => []
  | fuel + 1, c :: rest =>
    if pat.isPrefixOf (c :: rest) then
      rep ++ replaceGo pat rep fuel ((c :: rest).drop pat.length)
    else c :: replaceGo pat rep fuel rest

/-- Python `str.replace`: with an empty pattern the replacement is inserted
before every character and at the end. -/
def pyReplace (s pat rep : String) : String :=
  match pat.data with
  | [] => String.mk (rep.data ++ s.data.foldr (fun c acc => c :: rep.data ++ acc) [])
  | _ :: _ => String.mk (replaceGo pat.data rep.data s.data.length s.data)

/-- One entry of a status folder's `messagelist`:
`{'uid': uid, 'flags': flags}`. -/
structure StatusRec where
  uid : Int
  flags : Chars
deriving DecidableEq, Repr

/-- Calls `syncmoves` makes on its collaborators and on the filesystem,
recorded as a trace. -/
inductive SyncEvent
  | markerUnlink (fn : String)
  | localGetfolder (name : String)
  | remoteGetfolder (name : String)
  | remoteCopy (uid : Int) (dest : String)
  | setExpungeFalse (name : String)
  | remoteDelete (uid : Int)
  | moveFile (folder filename : String) (newuid : Int)
  | statusSave (name : String)
  | doExpunge (name : String)
  | forgetLocal
  | forgetRemote
  | forgetStatus
deriving DecidableEq, Repr

/-- One move marker as yielded by `_getmoves_postdelete`: the marker file
path `fn`, source folder name, destination folder name, the old and new
encoded filenames, together with the disk oracle for
`os.path.exists(fullname)` and the outcome of
`remote_oldfolder.remotecopymessage` (`none` models
`NotImplementedError`). -/
structure Marker where
  fn : String
  oldf : String
  newf : String
  old_filename : String
  filename : String
  fullnameExists : Bool
  copyResult : Option Int
deriving DecidableEq, Repr

/-- The repositories involved in `syncmoves`: the separators of the local,
remote and status repository and the folder names each of the collaborator
repositories can resolve via `getfolder`. -/
structure SyncParams where
  sep : String
  rsep : String
  ssep : String
  localFolders : List String
  remoteFolders : List String

/-- Modelled from the spec: `MaildirFolder._parse_filename` is called by
`syncmoves` but is not defined in the provided sources.  Per the spec's
Identity Codec (§4.2) `parse` extracts the embedded id and the flag set
from a filename, malformed or absent fields being treated as absent, and
per §3 a message without a resolvable id carries a negative placeholder,
which is how the call site `if uid < 0: continue` reads the result.  The
id component is therefore modelled as the parsed `,U=` value, or `-1` when
the field is absent, and the flag component as the parsed flag set. -/
def parse_filename (name : String) : Int × Chars :=
  (match findUid name.data with
   | some u => (u : Int)
   | none => -1,
   (findFlags name.data).getD [])

/-- The running state of one `syncmoves` invocation: the persistent
`self.deletecounter`, the `dirty_status` set (as the list of status folder
names in insertion order), the in-memory status cache keyed by status
folder name, the event trace, and whether an uncaught exception ended the
run. -/
structure SyncSt where
  deletecounter : Nat
  dirtySet : List String
  cache : List (String × List (Int × StatusRec))
  events : List SyncEvent
  raised : Bool
deriving DecidableEq, Repr

def pushUnique (l : List String) (x : String) : List String :=
  if x ∈ l then l else l ++ [x]

/-- The replay tail of one marker-loop iteration of `syncmoves`, entered
once the remote copy has produced a usable new uid: batched remote delete
(deferring the expunge except every 100th deletion), local rename to the
new uid, direct status-cache edits, dirty-marking of both status folders,
and — when the replay counter reaches a multiple of the hardcoded
`save_interval = 100` — a persist of every dirty status folder and a clear
of the dirty set. -/
def replayMarker (P : SyncParams) (s : SyncSt) (m : Marker)
    (rOld rNew sOld sNew : String) (lookupEvs : List SyncEvent)
    (uid newuid : Int) (old_flags : Chars) : SyncSt :=
  let counter := s.deletecounter + 1
  let expungeEvs :=
    if counter % 100 ≠ 0 then [SyncEvent.setExpungeFalse rOld] else []
  let cache1 :=
    amodify s.cache sNew (fun ml => ainsert newuid ⟨newuid, old_flags⟩ ml)
  let cache2 := amodify cache1 sOld (fun ml => aremove ml uid)
  let dirty1 := pushUnique (pushUnique s.dirtySet sNew) sOld
  let saveEvs :=
    if counter % 100 = 0 then dirty1.map SyncEvent.statusSave else []
  let dirty2 := if counter % 100 = 0 then [] else dirty1
  { deletecounter := counter
    dirtySet := dirty2
    cache := cache2
    events := s.events ++ lookupEvs ++
      SyncEvent.remoteCopy uid rNew :: expungeEvs ++
      SyncEvent.remoteDelete uid ::
      SyncEvent.moveFile m.newf m.filename newuid :: saveEvs ++
      [SyncEvent.markerUnlink m.fn]
    raised := false }

/-- One iteration of the marker loop of `syncmoves`.  The marker file is
unlinked by the `finally` of `_getmoves_postdelete` when the generator is
resumed or closed, hence in every outcome of the body, including an
uncaught exception (which also stops the loop: `raised` short-circuits all
later markers, which are then never yielded nor unlinked).  The skip
checks, collaborator lookups, parses, and the replay mirror the source
order; `save_interval` is the hardcoded 100. -/
def processMarker (P : SyncParams) (s : SyncSt) (m : Marker) : SyncSt :=
  if s.raised then s
  else if m.oldf = m.newf then
    { s with events := s.events ++ [SyncEvent.markerUnlink m.fn] }
  else if m.fullnameExists = false then
    { s with events := s.events ++ [SyncEvent.markerUnlink m.fn] }
  else if m.oldf ∉ P.localFolders then
    { s with
      raised := true
      events := s.events ++
        [SyncEvent.localGetfolder m.oldf, SyncEvent.markerUnlink m.fn] }
  else if m.newf ∉ P.localFolders then
    { s with
      raised := true
      events := s.events ++
        [SyncEvent.localGetfolder m.oldf, SyncEvent.localGetfolder m.newf,
          SyncEvent.markerUnlink m.fn] }
  else
    let rOld := pyReplace m.oldf P.sep P.rsep
    let rNew := pyReplace m.newf P.sep P.rsep
    let sOld := pyReplace m.oldf P.sep P.ssep
    let sNew := pyReplace m.newf P.sep P.ssep
    if rOld ∉ P.remoteFolders then
      { s with
        raised := true
        events := s.events ++
          [SyncEvent.localGetfolder m.oldf, SyncEvent.localGetfolder m.newf,
            SyncEvent.remoteGetfolder rOld, SyncEvent.markerUnlink m.fn] }
    else if rNew ∉ P.remoteFolders then
      { s with
        raised := true
        events := s.events ++
          [SyncEvent.localGetfolder m.oldf, SyncEvent.localGetfolder m.newf,
            SyncEvent.remoteGetfolder rOld, SyncEvent.remoteGetfolder rNew,
            SyncEvent.markerUnlink m.fn] }
    else if (alookup s.cache sOld).isNone ∨ (alookup s.cache sNew).isNone then
      { s with
        raised := true
        events := s.events ++
          [SyncEvent.localGetfolder m.oldf, SyncEvent.localGetfolder m.newf,
            SyncEvent.remoteGetfolder rOld, SyncEvent.remoteGetfolder rNew,
            SyncEvent.markerUnlink m.fn] }
    else
      let lookupEvs :=
        [SyncEvent.localGetfolder m.oldf, SyncEvent.localGetfolder m.newf,
          SyncEvent.remoteGetfolder rOld, SyncEvent.remoteGetfolder rNew]
      let old_flags := (parse_filename m.old_filename).2
      let uid := (parse_filename m.filename).1
      if uid < 0 then
        { s with events := s.events ++ lookupEvs ++ [SyncEvent.markerUnlink m.fn] }
      else
        match m.copyResult with
        | none =>
          { s with events := s.events ++ lookupEvs ++
              [SyncEvent.remoteCopy uid rNew, SyncEvent.markerUnlink m.fn] }
        | some newuid =>
          if newuid ≤ 0 then
            { s with events := s.events ++ lookupEvs ++
                [SyncEvent.remoteCopy uid rNew, SyncEvent.markerUnlink m.fn] }
          else replayMarker P s m rOld rNew sOld sNew lookupEvs uid newuid
            old_flags

/-- `MaildirRepository.syncmoves(remoterepos, statusrepos)`.  With no
pending marker the run returns before touching anything.  Otherwise the
status caches are loaded, the marker loop runs, and — unless an exception
escaped it — every remote folder is expunged, every status folder saved,
and the three repositories' folder caches forgotten. -/
def syncmoves (P : SyncParams)
    (statusFolders : List (String × List (Int × StatusRec)))
    (initCounter : Nat) (markers : List Marker) : SyncSt :=
  match markers with
  | [] => ⟨initCounter, [], statusFolders, [], false⟩
  | _ =>
    let s0 : SyncSt := ⟨initCounter, [], statusFolders, [], false⟩
    let s1 := markers.foldl (processMarker P) s0
    if s1.raised then s1
    else
      { s1 with events := s1.events ++
          P.remoteFolders.map SyncEvent.doExpunge ++
          (s1.cache.map Prod.fst).map SyncEvent.statusSave ++
          [SyncEvent.forgetLocal, SyncEvent.forgetRemote,
            SyncEvent.forgetStatus] }

/-- Formalisation of the spec's phrase "contains a parent-directory
traversal segment": some `/`-separated component of the name is `..`. -/
def hasTraversalSegment (name : String) : Bool :=
  (pySplitSlash name).any (fun c => c = "..")

/-- Recogniser for status-persist events, used to state checkpointing
properties. -/
def isStatusSave : SyncEvent → Bool
  | SyncEvent.statusSave _ => true
  | _ => false

/-- Recogniser for remote-repository interactions (folder listing/lookup
and message operations on the remote store). -/
def isRemoteCall : SyncEvent → Bool
  | SyncEvent.remoteGetfolder _ => true
  | SyncEvent.remoteCopy _ _ => true
  | SyncEvent.remoteDelete _ => true
  | SyncEvent.setExpungeFalse _ => true
  | SyncEvent.doExpunge _ => true
  | _ => false

/-- A concrete marker the engine skips (source equals destination). -/
def c9SkipMarker : Marker := ⟨"f0", "a", "a", "o", "n", true, some 2⟩

/-- A concrete marker that replays successfully: the encoded filename
carries `,U=1` and the remote copy yields the new uid 2. -/
def c9GoodMarker : Marker := ⟨"f", "a", "b", "o", "x,U=1", true, some 2⟩

/-- Repositories for the concrete runs: identical separators and the two
folders `a`, `b` everywhere. -/
def c9Params : SyncParams := ⟨".", ".", ".", ["a", "b"], ["a", "b"]⟩

/-- A concrete engine run over 100 markers of which the first is skipped:
99 replays, so the replay counter never reaches 100. -/
def c9Run : SyncSt :=
  (c9SkipMarker :: List.replicate 99 c9GoodMarker).foldl
    (processMarker c9Params) ⟨0, [], [("a", []), ("b", [])], [], false⟩

/-- Predicate for a file name resolving to a given positive uid during a
scan, used to state when two listing orders agree. -/
def uidPred (fp : Chars) (u : Nat) (file : String) : Bool :=
  resolveUid fp (basenameCh file.data) == some u

/-! ## Helper lemmas -/

lemma alookup_ainsert {κ ν : Type} [DecidableEq κ] (k : κ) (v : ν)
    (m : List (κ × ν)) (j : κ) :
    alookup (ainsert k v m) j = if j = k then some v else alookup m j := by
  induction m with
  | nil =>
    by_cases h : j = k
    · subst h; simp [ainsert, alookup]
    · have hkj : ¬ k = j := fun hh => h hh.symm
      simp [ainsert, alookup, h, hkj]
  | cons p rest ih =>
    by_cases hjk : j = k
    · subst hjk
      by_cases hpk : p.1 = j
      · simp [ainsert, alookup, hpk]
      · simp [ainsert, alookup, hpk, ih]
    · have hkj : ¬ k = j := fun hh => hjk hh.symm
      by_cases hpk : p.1 = k
      · have hpj : ¬ p.1 = j := fun hh => hjk (hpk.symm.trans hh).symm
        simp [ainsert, alookup, hpk, hjk, hkj, hpj]
      · by_cases hpj : p.1 = j
        · simp [ainsert, alookup, hpk, hjk, hpj, ih]
        · simp [ainsert, alookup, hpk, hjk, hpj, ih]

lemma alookup_aremove_self {κ ν : Type} [DecidableEq κ] (m : List (κ × ν))
    (k : κ) : alookup (aremove m k) k = none := by
  induction m with
  | nil => rfl
  | cons p rest ih =>
    by_cases h : p.1 = k
    · simpa [aremove, List.filter_cons, h] using ih
    · simpa [aremove, List.filter_cons, h, alookup] using ih

lemma mem_ainsert {κ ν : Type} [DecidableEq κ] {k : κ} {v : ν}
    {m : List (κ × ν)} {q : κ × ν} (h : q ∈ ainsert k v m) :
    q = (k, v) ∨ q ∈ m := by
  induction m with
  | nil => simpa [ainsert] using h
  | cons p rest ih =>
    by_cases hpk : p.1 = k
    · simp only [ainsert, hpk, if_pos] at h
      rcases List.mem_cons.mp h with h | h
      · exact Or.inl h
      · exact Or.inr (List.mem_cons_of_mem _ h)
    · simp only [ainsert, hpk, if_neg, not_false_iff] at h
      rcases List.mem_cons.mp h with h | h
      · exact Or.inr (h ▸ List.mem_cons_self _ _)
      · rcases ih h with h | h
        · exact Or.inl h
        · exact Or.inr (List.mem_cons_of_mem _ h)

lemma mem_keys_ainsert {κ ν : Type} [DecidableEq κ] (k : κ) (v : ν)
    (m : List (κ × ν)) (j : κ) :
    j ∈ (ainsert k v m).map Prod.fst ↔ j = k ∨ j ∈ m.map Prod.fst := by
  induction m with
  | nil => simp [ainsert]
  | cons p rest ih =>
    by_cases hpk : p.1 = k
    · simp only [ainsert, if_pos hpk, List.map_cons, List.mem_cons]
      constructor
      · rintro (h | h)
        · exact Or.inl h
        · exact Or.inr (Or.inr h)
      · rintro (h | h | h)
        · exact Or.inl h
        · exact Or.inl (h.trans hpk)
        · exact Or.inr h
    · simp only [ainsert, if_neg hpk, List.map_cons, List.mem_cons, ih]
      tauto

lemma nodup_keys_ainsert {κ ν : Type} [DecidableEq κ] (k : κ) (v : ν)
    (m : List (κ × ν)) (h : (m.map Prod.fst).Nodup) :
    ((ainsert k v m).map Prod.fst).Nodup := by
  induction m with
  | nil => simp [ainsert]
  | cons p rest ih =>
    simp only [List.map_cons, List.nodup_cons] at h
    obtain ⟨hp, hrest⟩ := h
    by_cases hpk : p.1 = k
    · subst hpk
      rw [show ainsert p.1 v (p :: rest) = (p.1, v) :: rest from by
        simp [ainsert]]
      simp only [List.map_cons, List.nodup_cons]
      exact ⟨hp, hrest⟩
    · simp only [ainsert, if_neg hpk, List.map_cons, List.nodup_cons]
      refine ⟨?_, ih hrest⟩
      intro hmem
      rcases (mem_keys_ainsert k v rest p.1).mp hmem with h1 | h1
      · exact hpk h1
      · exact hp h1

/-! ## C10: deleting an id absent from the cache is silent -/

/-- C10: for every id absent from the in-memory message cache,
`deletemessage(uid)` returns silently: it raises no error, performs no
filesystem operation, and leaves the cache unchanged. -/
theorem deletemessage_absent_uid_silent (st : List (Int × MsgRec))
    (uid : Int) (env : DelEnv) (h : alookup st uid = none) :
    deletemessage st uid env = ⟨false, st, []⟩ := by
  simp [deletemessage, h]

theorem deletemessage_absent_uid_silent_witness :
    deletemessage [(1, ⟨1, [], "F/new/a"⟩)] 2 ⟨true, [], true⟩ =
      ⟨false, [(1, ⟨1, [], "F/new/a"⟩)], []⟩ :=
  deletemessage_absent_uid_silent _ 2 _ (by decide)

/-! ## C6: saving under a placeholder id is a no-op -/

/-- C6: for every negative (placeholder) id, every content and every flag
set, `savemessage(uid, content, flags)` returns the id unchanged and
performs no filesystem write and no cache mutation. -/
theorem savemessage_placeholder_noop (fullname : String) (fp : Chars)
    (env : SaveEnv) (st : List (Int × MsgRec)) (uid : Int)
    (content : String) (flags : Chars) (h : uid < 0) :
    savemessage fullname fp env st uid content flags = ⟨uid, st, [], false⟩ := by
  simp [savemessage, h]

theorem savemessage_placeholder_noop_witness :
    savemessage "F" [] ⟨fun _ => (0, 0), 1, "h", fun _ => false⟩ [] (-3)
      "hello" [] = ⟨-3, [], [], false⟩ :=
  savemessage_placeholder_noop _ _ _ _ _ _ _ (by decide)

/-! ## C1: cache removal on delete -/

/-- C1 (amended): for a cached id, `deletemessage` first unlinks the cached
location; if that fails it performs exactly one rescan and at most one
retry; the record is removed from the cache in every outcome in which the
call returns normally (first unlink succeeded, or the rescan no longer
listed the id, or the retried unlink succeeded) — but when the retried
unlink also fails, the `OSError` escapes before the `del` line, so the
record is NOT removed. -/
theorem deletemessage_removal_characterization (st : List (Int × MsgRec))
    (uid : Int) (env : DelEnv) (msg : MsgRec)
    (h : alookup st uid = some msg) :
    (deletemessage st uid env).events.head? =
        some (FsEvent.unlinkF msg.filename)
    ∧ ((deletemessage st uid env).raised = false →
        alookup (deletemessage st uid env).cache uid = none)
    ∧ ((deletemessage st uid env).raised = true →
        (deletemessage st uid env).cache = st ∧
          env.firstUnlinkOk = false ∧ env.secondUnlinkOk = false)
    ∧ (deletemessage st uid env).events.countP (fun e => e == FsEvent.rescanEv)
        = (if env.firstUnlinkOk then 0 else 1)
    ∧ (deletemessage st uid env).events.length ≤ 3 := by
  cases henv1 : env.firstUnlinkOk
  · cases hres : alookup env.rescanList uid
    · simp [deletemessage, h, henv1, hres, alookup_aremove_self,
        List.countP_cons]
    · cases henv2 : env.secondUnlinkOk <;>
        simp [deletemessage, h, henv1, hres, henv2, alookup_aremove_self,
          List.countP_cons]
  · simp [deletemessage, h, henv1, alookup_aremove_self, List.countP_cons]

theorem deletemessage_removal_characterization_witness :
    (deletemessage [(1, ⟨1, [], "F/new/a"⟩)] 1 ⟨true, [], true⟩).events.head?
        = some (FsEvent.unlinkF "F/new/a")
      ∧ (deletemessage [(1, ⟨1, [], "F/new/a"⟩)] 1
          ⟨true, [], true⟩).events.length ≤ 3 :=
  ⟨(deletemessage_removal_characterization _ 1 _ ⟨1, [], "F/new/a"⟩
      (by decide)).1,
    (deletemessage_removal_characterization _ 1 _ ⟨1, [], "F/new/a"⟩
      (by decide)).2.2.2.2⟩

/-- C1 (counterexample to the claim as stated): with a marker file whose
first unlink fails, whose rescan still lists the id, and whose retried
unlink also fails, `deletemessage` raises and the record is NOT removed
from the cache, contradicting "in every outcome ... the record for id is
removed". -/
theorem deletemessage_retry_failure_keeps_record :
    (deletemessage [(1, ⟨1, [], "F/new/a"⟩)] 1
        ⟨false, [(1, ⟨1, [], "F/cur/a"⟩)], false⟩).raised = true
    ∧ alookup (deletemessage [(1, ⟨1, [], "F/new/a"⟩)] 1
        ⟨false, [(1, ⟨1, [], "F/cur/a"⟩)], false⟩).cache 1 =
      some ⟨1, [], "F/new/a"⟩ := by
  decide

/-! ## C4: cache invariants after a rescan -/

lemma sorted_sortChars (l : Chars) : (sortChars l).Sorted (· ≤ ·) :=
  List.sorted_insertionSort _ l

lemma nodup_sortChars (l : Chars) (h : l.Nodup) : (sortChars l).Nodup :=
  ((List.perm_insertionSort _ l).nodup_iff).mpr h

lemma scan_fold_good (fp : Chars) (files : List String) :
    ∀ (ctr : Int) (m : List (Int × MsgRec)),
      (m.map Prod.fst).Nodup →
      (∀ p ∈ m, p.2.flags.Sorted (· ≤ ·) ∧
        (((findFlags (basenameCh p.2.filename.data)).getD []).Nodup →
          p.2.flags.Sorted (· < ·))) →
      ((files.foldl (scanStep fp) (ctr, m)).2.map Prod.fst).Nodup ∧
        ∀ p ∈ (files.foldl (scanStep fp) (ctr, m)).2,
          p.2.flags.Sorted (· ≤ ·) ∧
          (((findFlags (basenameCh p.2.filename.data)).getD []).Nodup →
            p.2.flags.Sorted (· < ·)) := by
  induction files with
  | nil => exact fun ctr m h1 h2 => ⟨h1, h2⟩
  | cons f fs ih =>
    intro ctr m h1 h2
    have hgood : ∀ u : Int,
        (mkRec u f).flags.Sorted (· ≤ ·) ∧
        (((findFlags (basenameCh (mkRec u f).filename.data)).getD []).Nodup →
          (mkRec u f).flags.Sorted (· < ·)) := by
      intro u
      refine ⟨sorted_sortChars _, fun hnd => ?_⟩
      exact (sorted_sortChars _).lt_of_le (nodup_sortChars _ hnd)
    have hmemgood : ∀ (k u : Int),
        (∀ p ∈ ainsert k (mkRec u f) m, p.2.flags.Sorted (· ≤ ·) ∧
          (((findFlags (basenameCh p.2.filename.data)).getD []).Nodup →
            p.2.flags.Sorted (· < ·))) := by
      intro k u p hp
      rcases mem_ainsert hp with h | h
      · rw [h]; exact hgood u
      · exact h2 p h
    simp only [List.foldl_cons]
    cases hres : resolveUid fp (basenameCh f.data) with
    | some u =>
      simp only [scanStep, hres]
      exact ih _ _ (nodup_keys_ainsert _ _ _ h1) (hmemgood _ _)
    | none =>
      simp only [scanStep, hres]
      exact ih _ _ (nodup_keys_ainsert _ _ _ h1) (hmemgood _ _)

/-- C4 (amended): for every folder and every on-disk file set, after a
rescan every id in the cache is unique (the keys of the cache are nodup),
and every record's flag list is sorted in NON-decreasing ASCII order;
whenever the flag field parsed from the record's filename has no repeated
character — in particular for every filename this store writes — the order
is strictly ascending with no duplicates.  (The unamended "strict, no
duplicates" clause fails for foreign filenames whose flag field repeats a
character, since `_scanfolder` only sorts and never deduplicates; see the
counterexample.) -/
theorem scanfolder_cache_invariants (fp : Chars) (fullname : String)
    (newL curL : List String) :
    ((scanfolder fp fullname newL curL).map Prod.fst).Nodup ∧
      ∀ p ∈ scanfolder fp fullname newL curL,
        p.2.flags.Sorted (· ≤ ·) ∧
        (((findFlags (basenameCh p.2.filename.data)).getD []).Nodup →
          p.2.flags.Sorted (· < ·)) :=
  scan_fold_good fp _ (-1) [] (by simp) (by simp)

theorem scanfolder_cache_invariants_witness :
    ((scanfolder [] "F" ["m:2,RS"] []).map Prod.fst).Nodup ∧
      (['R', 'S'] : Chars).Sorted (· < ·) := by
  refine ⟨(scanfolder_cache_invariants [] "F" ["m:2,RS"] []).1, ?_⟩
  have h := (scanfolder_cache_invariants [] "F" ["m:2,RS"] []).2
    (-1, mkRec (-1) "F/new/m:2,RS") (by decide)
  have h2 := h.2 (by decide)
  have he : (mkRec (-1) "F/new/m:2,RS").flags = ['R', 'S'] := by decide
  rwa [he] at h2

/-- C4 (counterexample to the claim as stated): the file `x:2,SS` carries
the flag field `SS`; `_scanfolder` sorts but never deduplicates, so the
resulting record's flag list is `['S', 'S']` — neither strictly ascending
nor duplicate-free. -/
theorem scanfolder_duplicate_flags_counterexample :
    alookup (scanfolder [] "F" ["x:2,SS"] []) (-1) =
        some ⟨-1, ['S', 'S'], "F/new/x:2,SS"⟩
      ∧ ¬ (['S', 'S'] : Chars).Sorted (· < ·)
      ∧ ¬ (['S', 'S'] : Chars).Nodup := by
  decide

/-! ## C5: setFlags with the currently-held flag set -/

lemma takeWhile_append_all {α : Type} (p : α → Bool) (l₁ l₂ : List α)
    (h : ∀ x ∈ l₁, p x = true) :
    (l₁ ++ l₂).takeWhile p = l₁ ++ l₂.takeWhile p := by
  induction l₁ with
  | nil => simp
  | cons a rest ih =>
    have ha := h a (List.mem_cons_self _ _)
    simp [List.takeWhile_cons, ha,
      ih (fun x hx => h x (List.mem_cons_of_mem _ hx))]

lemma dropWhile_append_all {α : Type} (p : α → Bool) (l₁ l₂ : List α)
    (h : ∀ x ∈ l₁, p x = true) :
    (l₁ ++ l₂).dropWhile p = l₂.dropWhile p := by
  induction l₁ with
  | nil => simp
  | cons a rest ih =>
    have ha := h a (List.mem_cons_self _ _)
    simp [List.dropWhile_cons, ha,
      ih (fun x hx => h x (List.mem_cons_of_mem _ hx))]

lemma basenameCh_append (a b : Chars) (h : '/' ∉ b) :
    basenameCh (a ++ '/' :: b) = b := by
  unfold basenameCh
  have hall : ∀ x ∈ b.reverse, (x != '/') = true := by
    intro x hx
    have hxb : x ∈ b := List.mem_reverse.mp hx
    exact bne_iff_ne.mpr (fun e => h (by rwa [e] at hxb))
  rw [List.reverse_append, List.reverse_cons, List.append_assoc,
    takeWhile_append_all _ _ _ hall]
  simp

lemma subFlag_true_upper (l : Chars) (h : ∀ c ∈ l, c.isUpper = true) :
    subFlag l true = [] := by
  induction l with
  | nil => rfl
  | cons c rest ih =>
    have hc : c.isUpper = true := h c (List.mem_cons_self _ _)
    have hne : c ≠ '2' := fun e => absurd (e ▸ hc) (by decide)
    have ih2 := ih (fun x hx => h x (List.mem_cons_of_mem _ hx))
    rw [subFlag.eq_def]
    split <;> simp_all

/-- C5 (amended): `savemessageflags(uid, F)` is a no-op — no rename, no
cache mutation — when the cached filename is already the canonical encoding
of `F`: it lies in the partition dictated by `F`'s seen flag and ends with
the canonical flag suffix `:2,` + sorted `F`.  (The general claim that
setting the currently-held flag set is always a no-op fails: the operation
rewrites the filename whenever the stored name differs from this canonical
form, e.g. for a scanned file without any flag suffix; see the
counterexample.) -/
theorem savemessageflags_noop_on_canonical (fullname : String)
    (st : List (Int × MsgRec)) (uid : Int) (F : Chars) (msg : MsgRec)
    (stem : Chars)
    (hmem : alookup st uid = some msg)
    (hupper : ∀ c ∈ F, c.isUpper = true)
    (hstem1 : '/' ∉ stem) (hstem2 : ':' ∉ stem)
    (hflags : msg.flags = sortChars F)
    (hfile : msg.filename = String.mk (fullname.data ++
        ((if 'S' ∈ F then "/cur".data else "/new".data) ++
          '/' :: (stem ++ ':' :: '2' :: ',' :: sortChars F)))) :
    savemessageflags fullname st uid F = ⟨st, [], false⟩ := by
  have hupsort : ∀ c ∈ sortChars F, c.isUpper = true := fun c hc =>
    hupper c ((List.mem_insertionSort _).mp hc)
  have hslash : '/' ∉ stem ++ ':' :: '2' :: ',' :: sortChars F := by
    intro hm
    rcases List.mem_append.mp hm with hm | hm
    · exact hstem1 hm
    · simp only [List.mem_cons] at hm
      rcases hm with hm | hm | hm | hm
      · exact absurd hm (by decide)
      · exact absurd hm (by decide)
      · exact absurd hm (by decide)
      · exact absurd (hupsort '/' hm) (by decide)
  have hdata : msg.filename.data =
      (fullname.data ++ (if 'S' ∈ F then "/cur".data else "/new".data)) ++
        '/' :: (stem ++ ':' :: '2' :: ',' :: sortChars F) := by
    rw [hfile]
    simp [List.append_assoc]
  have hbase : basenameCh msg.filename.data =
      stem ++ ':' :: '2' :: ',' :: sortChars F := by
    rw [hdata, basenameCh_append _ _ hslash]
  have hstemP : ∀ x ∈ stem, (x != ':') = true := fun x hx =>
    bne_iff_ne.mpr (fun e => hstem2 (e ▸ hx))
  have htake : (stem ++ ':' :: '2' :: ',' :: sortChars F).takeWhile
      (fun c => c != ':') = stem := by
    rw [takeWhile_append_all _ _ _ hstemP]
    simp
  have hdrop : (stem ++ ':' :: '2' :: ',' :: sortChars F).dropWhile
      (fun c => c != ':') = ':' :: '2' :: ',' :: sortChars F := by
    rw [dropWhile_append_all _ _ _ hstemP]
    simp
  have hsub : subFlag (':' :: '2' :: ',' :: sortChars F) false = [':'] := by
    show ':' :: subFlag (sortChars F) true = [':']
    rw [subFlag_true_upper _ hupsort]
  simp only [savemessageflags, hmem, hbase, htake, hdrop]
  have hne : (':' :: '2' :: ',' :: sortChars F).isEmpty = false := rfl
  rw [hne]
  simp only [Bool.false_eq_true, if_false, hsub]
  rw [if_pos]
  rw [hfile]
  apply congrArg String.mk
  simp [List.append_assoc]

theorem savemessageflags_noop_on_canonical_witness :
    savemessageflags "F" [(5, ⟨5, ['S'], "F/cur/m:2,S"⟩)] 5 ['S'] =
      ⟨[(5, ⟨5, ['S'], "F/cur/m:2,S"⟩)], [], false⟩ :=
  savemessageflags_noop_on_canonical "F" _ 5 ['S'] ⟨5, ['S'], "F/cur/m:2,S"⟩
    ['m'] (by decide) (by decide) (by decide) (by decide) (by decide)
    (by decide)

/-- C5 (counterexample to the claim as stated): a cached message whose
filename carries no flag suffix holds the empty flag set; calling
`savemessageflags` with that same (empty) flag set renames the file — it
appends `:2,` — and mutates the cached location, so the call is not a
no-op even though the requested flags equal the currently-held ones. -/
theorem savemessageflags_equal_flags_rename_counterexample :
    (savemessageflags "F" [(1, ⟨1, [], "F/new/m"⟩)] 1 []).events =
        [FsEvent.renameF "F/new/m" "F/new/m:2,"]
      ∧ alookup (savemessageflags "F" [(1, ⟨1, [], "F/new/m"⟩)] 1 []).cache 1 =
        some ⟨1, [], "F/new/m:2,"⟩ := by
  decide

/-! ## C3: rescan and listing order -/

lemma find?_eq_of_perm_countP {α : Type} (p : α → Bool) {l₁ l₂ : List α}
    (hp : l₁.Perm l₂) (hc : l₁.countP p ≤ 1) : l₁.find? p = l₂.find? p := by
  cases h1 : l₁.find? p with
  | none =>
    have hall := List.find?_eq_none.mp h1
    symm
    exact List.find?_eq_none.mpr (fun x hx => hall x (hp.mem_iff.mpr hx))
  | some a =>
    have hpa : p a = true := List.find?_some h1
    have hma : a ∈ l₁ := List.mem_of_find?_eq_some h1
    cases h2 : l₂.find? p with
    | none =>
      exact absurd hpa
        (by simpa using List.find?_eq_none.mp h2 a (hp.mem_iff.mp hma))
    | some b =>
      have hpb : p b = true := List.find?_some h2
      have hmb : b ∈ l₁ := hp.mem_iff.mpr (List.mem_of_find?_eq_some h2)
      by_contra hne'
      have hab : a ≠ b := fun e => hne' (by rw [e])
      have hmaf : a ∈ l₁.filter p := List.mem_filter.mpr ⟨hma, hpa⟩
      have hmbf : b ∈ l₁.filter p := List.mem_filter.mpr ⟨hmb, hpb⟩
      have h2le : 2 ≤ (l₁.filter p).length := by
        rcases hf : l₁.filter p with _ | ⟨x, _ | ⟨y, t⟩⟩
        · rw [hf] at hmaf; simp at hmaf
        · rw [hf] at hmaf hmbf
          simp at hmaf hmbf
          exact absurd (hmaf.trans hmbf.symm) hab
        · simp
      rw [List.countP_eq_length_filter] at hc
      omega

lemma scan_fold_lookup (fp : Chars) (u : Nat) :
    ∀ (files : List String) (ctr : Int) (m : List (Int × MsgRec)),
      ctr < 0 →
      alookup ((files.foldl (scanStep fp) (ctr, m)).2) ((u : Int)) =
        ((files.reverse.find? (uidPred fp u)).map
            (mkRec ((u : Int)))).or (alookup m ((u : Int))) := by
  intro files
  induction files with
  | nil => intro ctr m _; simp
  | cons f fs ih =>
    intro ctr m hctr
    simp only [List.foldl_cons, List.reverse_cons, List.find?_append]
    cases hres : resolveUid fp (basenameCh f.data) with
    | some v =>
      simp only [scanStep, hres]
      rw [ih ctr _ hctr]
      cases hfind : fs.reverse.find? (uidPred fp u) with
      | some g => simp
      | none =>
        simp only [Option.none_or, Option.map_none]
        rw [alookup_ainsert]
        have hpredf : uidPred fp u f = (v == u) := by
          simp [uidPred, hres]
        by_cases hvu : v = u
        · subst hvu
          simp [hpredf, Int.ofNat_eq_coe]
        · have hvu' : ¬ u = v := fun e => hvu e.symm
          have h2 : (v == u) = false := by simpa using hvu
          simp [hpredf, h2, hvu', Int.ofNat_eq_coe]
    | none =>
      simp only [scanStep, hres]
      rw [ih (ctr - 1) _ (by omega)]
      have hpredf : uidPred fp u f = false := by
        simp [uidPred, hres]
      cases hfind : fs.reverse.find? (uidPred fp u) with
      | some g => simp
      | none =>
        simp only [Option.none_or, Option.map_none]
        rw [alookup_ainsert]
        have h1 : ¬ ((u : Int)) = ctr := by
          intro e
          omega
        simp [hpredf, h1]

/-- C3 (amended): for every folder and every two per-partition permutations
of the same file sets, PROVIDED no two listed files resolve to the same
positive id, the rescan results agree on every positive id: the record
stored under a positive id is determined by the unique file carrying that
id, independently of listing order.  (Without the uniqueness proviso the
claim as stated is false: when two files resolve to the same positive id
the later one in listing order wins the dict slot, so listing order does
leak into the map on a positive id — see the counterexample.) -/
theorem scanfolder_order_independent (fp : Chars) (fullname : String)
    (n₁ n₂ c₁ c₂ : List String) (hn : n₁.Perm n₂) (hc : c₁.Perm c₂)
    (huniq : ∀ u : Nat,
      (scanFiles fullname n₁ c₁).countP (uidPred fp u) ≤ 1) :
    ∀ u : Nat, 0 < u →
      alookup (scanfolder fp fullname n₁ c₁) ((u : Int)) =
        alookup (scanfolder fp fullname n₂ c₂) ((u : Int)) := by
  intro u _
  have hperm : (scanFiles fullname n₁ c₁).Perm (scanFiles fullname n₂ c₂) :=
    (hn.map _).append (hc.map _)
  have hrev : (scanFiles fullname n₁ c₁).reverse.Perm
      ((scanFiles fullname n₂ c₂).reverse) :=
    ((List.reverse_perm _).trans hperm).trans (List.reverse_perm _).symm
  have hcount : (scanFiles fullname n₁ c₁).reverse.countP (uidPred fp u) ≤ 1 := by
    rw [(List.reverse_perm _).countP_eq]
    exact huniq u
  rw [scanfolder, scanfolder,
    scan_fold_lookup fp u _ _ _ (by norm_num),
    scan_fold_lookup fp u _ _ _ (by norm_num),
    find?_eq_of_perm_countP _ hrev hcount]

theorem scanfolder_order_independent_witness :
    alookup (scanfolder "00000000000000000000000000000000".data "F"
        ["a,U=5,FMD5=00000000000000000000000000000000", "noid"] []) 5 =
      alookup (scanfolder "00000000000000000000000000000000".data "F"
        ["noid", "a,U=5,FMD5=00000000000000000000000000000000"] []) 5 := by
  have hfiles : scanFiles "F"
      ["a,U=5,FMD5=00000000000000000000000000000000", "noid"] [] =
      ["F/new/a,U=5,FMD5=00000000000000000000000000000000", "F/new/noid"] := by
    decide
  have huniq : ∀ u : Nat,
      (scanFiles "F" ["a,U=5,FMD5=00000000000000000000000000000000", "noid"]
        []).countP
        (uidPred "00000000000000000000000000000000".data u) ≤ 1 := by
    intro u
    have ha : uidPred "00000000000000000000000000000000".data u
        "F/new/a,U=5,FMD5=00000000000000000000000000000000" =
        (some 5 == some u) := by
      unfold uidPred
      rw [show resolveUid "00000000000000000000000000000000".data
        (basenameCh "F/new/a,U=5,FMD5=00000000000000000000000000000000".data) =
        some 5 from by decide]
    have hb : uidPred "00000000000000000000000000000000".data u
        "F/new/noid" = false := by
      unfold uidPred
      rw [show resolveUid "00000000000000000000000000000000".data
        (basenameCh "F/new/noid".data) = none from by decide]
      rfl
    rw [hfiles, List.countP_cons, List.countP_cons, List.countP_nil, ha, hb]
    by_cases h5 : (5 : Nat) = u
    · subst h5; simp
    · have hbeq : (some (5 : Nat) == some u) = false := by simpa using h5
      simp [hbeq]
  exact scanfolder_order_independent _ "F" _ _ [] [] (by decide) (by decide)
    huniq 5 (by decide)

/-- C3 (counterexample to the claim as stated): two distinct files in the
same partition both carry `U=5` with the folder's own fingerprint; the
later file in listing order overwrites the dict slot for id 5, so the two
listing orders produce different records under the positive id 5. -/
theorem scanfolder_order_dependent_counterexample :
    ["a,U=5,FMD5=00000000000000000000000000000000",
        "b,U=5,FMD5=00000000000000000000000000000000"].Perm
      ["b,U=5,FMD5=00000000000000000000000000000000",
        "a,U=5,FMD5=00000000000000000000000000000000"]
    ∧ alookup (scanfolder "00000000000000000000000000000000".data "F"
        ["a,U=5,FMD5=00000000000000000000000000000000",
          "b,U=5,FMD5=00000000000000000000000000000000"] []) 5 ≠
      alookup (scanfolder "00000000000000000000000000000000".data "F"
        ["b,U=5,FMD5=00000000000000000000000000000000",
          "a,U=5,FMD5=00000000000000000000000000000000"] []) 5 := by
  decide

/-! ## C7: folder-name validation in makefolder -/

lemma makefolderCreate_not_validation (fs : FS) (p : Path) :
    (makefolderCreate fs p).outcome ≠ MkOutcome.validationError := by
  unfold makefolderCreate
  dsimp only
  split
  · simp
  · split <;> simp

/-- C7 (amended): with the dryrun gate off, `makefolder` rejects a folder
name — with a validation error, before any filesystem mutation — exactly
when the name contains the literal substring `../`, or begins with `/`, or
(when the separator is `/`) has a `/`-component equal to a reserved
partition name.  The substring test `find('../')` is weaker than the
spec's "contains a parent-directory traversal segment": a trailing or
stand-alone `..` segment is NOT caught and reaches the filesystem (see the
counterexample). -/
theorem makefolder_validation_characterization (sep : String) (root : Path)
    (fs : FS) (foldername : String) :
    ((makefolder sep root false fs foldername).outcome =
        MkOutcome.validationError ↔
      (reservedCheck sep foldername = true ∨ traversalCheck foldername = true ∨
        rootCheck foldername = true))
    ∧ ((makefolder sep root false fs foldername).outcome =
          MkOutcome.validationError →
        (makefolder sep root false fs foldername).fs = fs ∧
          (makefolder sep root false fs foldername).events = []) := by
  unfold makefolder
  simp only [Bool.false_eq_true, if_false]
  split_ifs with h1 h2 h3
  · simp [h1]
  · simp [h2]
  · simp [h3]
  · refine ⟨⟨?_, ?_⟩, ?_⟩
    · intro hout
      exact absurd hout (makefolderCreate_not_validation fs _)
    · intro hor
      rcases hor with h | h | h
      · exact absurd h h1
      · exact absurd h h2
      · exact absurd h h3
    · intro hout
      exact absurd hout (makefolderCreate_not_validation fs _)

theorem makefolder_validation_characterization_witness :
    (makefolder "." ["r"] false [[], ["r"]] "../x").outcome =
        MkOutcome.validationError
      ∧ (makefolder "." ["r"] false [[], ["r"]] "../x").fs = [[], ["r"]]
      ∧ (makefolder "." ["r"] false [[], ["r"]] "../x").events = [] := by
  have h := makefolder_validation_characterization "." ["r"] [[], ["r"]] "../x"
  have hout := h.1.mpr (Or.inr (Or.inl (by decide)))
  exact ⟨hout, (h.2 hout).1, (h.2 hout).2⟩

/-- C7 (counterexample to the claim as stated): the folder name `..`
consists of a parent-directory traversal segment, yet
`foldername.find('../')` does not see the substring `../`, so `makefolder`
accepts the name and mutates the filesystem — it creates the `cur`, `new`,
`tmp` partitions inside the PARENT of the repository root (the `abspath`
normalisation turns `<root>/..` into the parent directory). -/
theorem makefolder_traversal_segment_not_rejected :
    hasTraversalSegment ".." = true
    ∧ (makefolder "." ["home", "mail"] false
        [[], ["home"], ["home", "mail"]] "..").outcome = MkOutcome.ok
    ∧ (makefolder "." ["home", "mail"] false
        [[], ["home"], ["home", "mail"]] "..").events ≠ []
    ∧ ["home", "cur"] ∈ (makefolder "." ["home", "mail"] false
        [[], ["home"], ["home", "mail"]] "..").fs := by
  decide

/-! ## C8: createFolder / discover round trip and idempotence -/

/-- C8: with separator `/`, creating `a/b/c` in a fresh repository rooted
at `r` succeeds; a subsequent discovery scan lists a folder named `a/b/c`;
its three reserved partitions exist on disk; and a second
`makefolder("a/b/c")` succeeds without error and without changing the
filesystem (idempotence). -/
theorem makefolder_discover_idempotent :
    (makefolder "/" ["r"] false [[], ["r"]] "a/b/c").outcome = MkOutcome.ok
    ∧ "a/b/c" ∈
        getfolders "/" (makefolder "/" ["r"] false [[], ["r"]] "a/b/c").fs
          ["r"] 10
    ∧ ["r", "a", "b", "c", "cur"] ∈
        (makefolder "/" ["r"] false [[], ["r"]] "a/b/c").fs
    ∧ ["r", "a", "b", "c", "new"] ∈
        (makefolder "/" ["r"] false [[], ["r"]] "a/b/c").fs
    ∧ ["r", "a", "b", "c", "tmp"] ∈
        (makefolder "/" ["r"] false [[], ["r"]] "a/b/c").fs
    ∧ (makefolder "/" ["r"] false
        (makefolder "/" ["r"] false [[], ["r"]] "a/b/c").fs "a/b/c").outcome =
      MkOutcome.ok
    ∧ (makefolder "/" ["r"] false
        (makefolder "/" ["r"] false [[], ["r"]] "a/b/c").fs "a/b/c").fs =
      (makefolder "/" ["r"] false [[], ["r"]] "a/b/c").fs := by
  decide

/-! ## C2: skip conditions of the move engine -/

lemma mem_pushUnique (l : List String) (x y : String) (h : x ∈ l) :
    x ∈ pushUnique l y := by
  unfold pushUnique
  split
  · exact h
  · exact List.mem_append_left _ h

lemma pushUnique_ne_nil (l : List String) (x : String) :
    pushUnique l x ≠ [] := by
  unfold pushUnique
  split
  · intro hnil
    subst hnil
    simp_all
  · simp

/-- C2 (amended): a marker whose parsed source folder equals its
destination, or whose destination file no longer exists, is skipped before
any collaborator lookup: no error, no call on the remote store of any
kind, state untouched, and the marker file is still removed (conjunct 1).
A marker whose parsed id is a negative placeholder is also skipped without
error, with no remote copy/delete issued and the marker file removed — but
only AFTER the local, remote and status folder lookups have run, so two
`getfolder` calls (folder listing) ARE made on the remote repository
(conjunct 2), and those lookups must succeed for the skip to be
error-free. -/
theorem syncmoves_skip_characterization (P : SyncParams) (s : SyncSt)
    (m : Marker) (hr : s.raised = false) :
    ((m.oldf = m.newf ∨ m.fullnameExists = false) →
      processMarker P s m =
        { s with events := s.events ++ [SyncEvent.markerUnlink m.fn] })
    ∧ (m.oldf ≠ m.newf → m.fullnameExists = true →
      m.oldf ∈ P.localFolders → m.newf ∈ P.localFolders →
      pyReplace m.oldf P.sep P.rsep ∈ P.remoteFolders →
      pyReplace m.newf P.sep P.rsep ∈ P.remoteFolders →
      (alookup s.cache (pyReplace m.oldf P.sep P.ssep)).isSome = true →
      (alookup s.cache (pyReplace m.newf P.sep P.ssep)).isSome = true →
      (parse_filename m.filename).1 < 0 →
      processMarker P s m =
        { s with events := s.events ++
            [SyncEvent.localGetfolder m.oldf, SyncEvent.localGetfolder m.newf,
              SyncEvent.remoteGetfolder (pyReplace m.oldf P.sep P.rsep),
              SyncEvent.remoteGetfolder (pyReplace m.newf P.sep P.rsep),
              SyncEvent.markerUnlink m.fn] }) := by
  constructor
  · intro hskip
    by_cases h1 : m.oldf = m.newf
    · simp [processMarker, hr, h1]
    · rcases hskip with h | h
      · exact absurd h h1
      · simp [processMarker, hr, h1, h]
  · intro hne hex hl1 hl2 hr1 hr2 hs1 hs2 huid
    have hn1 : ¬ (alookup s.cache (pyReplace m.oldf P.sep P.ssep)).isNone =
        true := by
      simp_all [Option.isNone_iff_eq_none, Option.isSome_iff_ne_none]
    have hn2 : ¬ (alookup s.cache (pyReplace m.newf P.sep P.ssep)).isNone =
        true := by
      simp_all [Option.isNone_iff_eq_none, Option.isSome_iff_ne_none]
    simp [processMarker, hr, hne, hex, hl1, hl2, hr1, hr2, hn1, hn2, huid]

theorem syncmoves_skip_characterization_witness :
    processMarker ⟨".", ".", ".", ["a", "b"], ["a", "b"]⟩
        ⟨0, [], [("a", []), ("b", [])], [], false⟩
        ⟨"f", "a", "a", "o", "n", true, some 2⟩ =
      ⟨0, [], [("a", []), ("b", [])], [SyncEvent.markerUnlink "f"], false⟩ :=
  (syncmoves_skip_characterization ⟨".", ".", ".", ["a", "b"], ["a", "b"]⟩
      ⟨0, [], [("a", []), ("b", [])], [], false⟩
      ⟨"f", "a", "a", "o", "n", true, some 2⟩ rfl).1 (Or.inl rfl)

/-- C2 (counterexample to the claim as stated): a marker whose parsed id is
a negative placeholder is skipped with the marker removed and without a
remote copy or delete, BUT the engine has already called `getfolder` on the
remote repository twice (a remote-store folder listing) before parsing the
id — so the skip is not free of remote-store calls. -/
theorem syncmoves_negative_uid_remote_lookup_counterexample :
    (parse_filename "noid").1 < 0
    ∧ (processMarker ⟨".", ".", ".", ["a", "b"], ["a", "b"]⟩
        ⟨0, [], [("a", []), ("b", [])], [], false⟩
        ⟨"f", "a", "b", "o", "noid", true, some 2⟩).events.countP
          isRemoteCall = 2
    ∧ (processMarker ⟨".", ".", ".", ["a", "b"], ["a", "b"]⟩
        ⟨0, [], [("a", []), ("b", [])], [], false⟩
        ⟨"f", "a", "b", "o", "noid", true, some 2⟩).events.countP
          (fun e => match e with
            | SyncEvent.remoteCopy _ _ => true
            | SyncEvent.remoteDelete _ => true
            | _ => false) = 0
    ∧ SyncEvent.remoteGetfolder "a" ∈
        (processMarker ⟨".", ".", ".", ["a", "b"], ["a", "b"]⟩
          ⟨0, [], [("a", []), ("b", [])], [], false⟩
          ⟨"f", "a", "b", "o", "noid", true, some 2⟩).events
    ∧ SyncEvent.markerUnlink "f" ∈
        (processMarker ⟨".", ".", ".", ["a", "b"], ["a", "b"]⟩
          ⟨0, [], [("a", []), ("b", [])], [], false⟩
          ⟨"f", "a", "b", "o", "noid", true, some 2⟩).events
    ∧ (processMarker ⟨".", ".", ".", ["a", "b"], ["a", "b"]⟩
        ⟨0, [], [("a", []), ("b", [])], [], false⟩
        ⟨"f", "a", "b", "o", "noid", true, some 2⟩).raised = false := by
  decide

/-! ## C9: checkpointing of the move engine -/

/-- C9 (amended): per processed marker the replay counter
`self.deletecounter` either stays unchanged (every skip and abort path) or
increases by exactly one (a successful replay that reached the remote
delete).  When a replay brings the counter to a multiple of 100 — the
interval is the hardcoded `save_interval = 100`, not a configuration
option — every status folder dirty before the marker is persisted and the
dirty set is cleared; when it does not, nothing is persisted by this
marker (any persist event already belonged to an earlier state) and the
dirty set is left non-empty.  Markers that are skipped never advance the
counter, so "every K processed markers" over-counts: only replayed markers
count (see the counterexample). -/
lemma replayMarker_counter (P : SyncParams) (s : SyncSt) (m : Marker)
    (rOld rNew sOld sNew : String) (lookupEvs : List SyncEvent)
    (uid newuid : Int) (old_flags : Chars) :
    (replayMarker P s m rOld rNew sOld sNew lookupEvs uid newuid
      old_flags).deletecounter = s.deletecounter + 1 := rfl

lemma replayMarker_checkpoint (P : SyncParams) (s : SyncSt) (m : Marker)
    (rOld rNew sOld sNew : String) (lookupEvs : List SyncEvent)
    (uid newuid : Int) (old_flags : Chars)
    (h100 : (s.deletecounter + 1) % 100 = 0) :
    (replayMarker P s m rOld rNew sOld sNew lookupEvs uid newuid
        old_flags).dirtySet = [] ∧
      ∀ n ∈ s.dirtySet, SyncEvent.statusSave n ∈
        (replayMarker P s m rOld rNew sOld sNew lookupEvs uid newuid
          old_flags).events := by
  constructor
  · simp [replayMarker, h100]
  · intro n hn
    have h1 : n ∈ pushUnique (pushUnique s.dirtySet sNew) sOld :=
      mem_pushUnique _ _ _ (mem_pushUnique _ _ _ hn)
    have h2 : SyncEvent.statusSave n ∈
        (pushUnique (pushUnique s.dirtySet sNew) sOld).map
          SyncEvent.statusSave := List.mem_map_of_mem _ h1
    simp only [replayMarker, if_pos h100, List.mem_append, List.mem_cons]
    tauto

lemma replayMarker_nocheckpoint (P : SyncParams) (s : SyncSt) (m : Marker)
    (rOld rNew sOld sNew : String) (lookupEvs : List SyncEvent)
    (uid newuid : Int) (old_flags : Chars)
    (hlk : ∀ x ∈ lookupEvs, isStatusSave x = false)
    (h100 : (s.deletecounter + 1) % 100 ≠ 0) :
    (replayMarker P s m rOld rNew sOld sNew lookupEvs uid newuid
        old_flags).dirtySet ≠ [] ∧
      ∀ n, SyncEvent.statusSave n ∈
          (replayMarker P s m rOld rNew sOld sNew lookupEvs uid newuid
            old_flags).events →
        SyncEvent.statusSave n ∈ s.events := by
  constructor
  · simp only [replayMarker, if_neg h100]
    exact pushUnique_ne_nil _ _
  · intro n hn
    have hnotlk : ¬ SyncEvent.statusSave n ∈ lookupEvs := fun hm => by
      simpa [isStatusSave] using hlk _ hm
    simp [replayMarker, if_neg h100, if_pos h100] at hn
    tauto

theorem syncmoves_checkpoint_characterization (P : SyncParams) (s : SyncSt)
    (m : Marker) (hr : s.raised = false) :
    ((processMarker P s m).deletecounter = s.deletecounter ∨
      (processMarker P s m).deletecounter = s.deletecounter + 1)
    ∧ ((processMarker P s m).deletecounter = s.deletecounter + 1 →
        (((s.deletecounter + 1) % 100 = 0 →
            (processMarker P s m).dirtySet = [] ∧
            ∀ n ∈ s.dirtySet,
              SyncEvent.statusSave n ∈ (processMarker P s m).events)
          ∧ ((s.deletecounter + 1) % 100 ≠ 0 →
            (processMarker P s m).dirtySet ≠ [] ∧
            ∀ n, SyncEvent.statusSave n ∈ (processMarker P s m).events →
              SyncEvent.statusSave n ∈ s.events))) := by
  by_cases h1 : m.oldf = m.newf
  · have hct : (processMarker P s m).deletecounter = s.deletecounter := by
      simp [processMarker, hr, h1]
    exact ⟨Or.inl hct, fun h => absurd (hct.symm.trans h) (by omega)⟩
  by_cases h2 : m.fullnameExists = false
  · have hct : (processMarker P s m).deletecounter = s.deletecounter := by
      simp [processMarker, hr, h1, h2]
    exact ⟨Or.inl hct, fun h => absurd (hct.symm.trans h) (by omega)⟩
  have h2' : m.fullnameExists = true := by
    revert h2; cases m.fullnameExists <;> simp
  by_cases h3 : m.oldf ∈ P.localFolders
  case neg =>
    have hct : (processMarker P s m).deletecounter = s.deletecounter := by
      simp [processMarker, hr, h1, h2', h3]
    exact ⟨Or.inl hct, fun h => absurd (hct.symm.trans h) (by omega)⟩
  by_cases h4 : m.newf ∈ P.localFolders
  case neg =>
    have hct : (processMarker P s m).deletecounter = s.deletecounter := by
      simp [processMarker, hr, h1, h2', h3, h4]
    exact ⟨Or.inl hct, fun h => absurd (hct.symm.trans h) (by omega)⟩
  by_cases h5 : pyReplace m.oldf P.sep P.rsep ∈ P.remoteFolders
  case neg =>
    have hct : (processMarker P s m).deletecounter = s.deletecounter := by
      simp [processMarker, hr, h1, h2', h3, h4, h5]
    exact ⟨Or.inl hct, fun h => absurd (hct.symm.trans h) (by omega)⟩
  by_cases h6 : pyReplace m.newf P.sep P.rsep ∈ P.remoteFolders
  case neg =>
    have hct : (processMarker P s m).deletecounter = s.deletecounter := by
      simp [processMarker, hr, h1, h2', h3, h4, h5, h6]
    exact ⟨Or.inl hct, fun h => absurd (hct.symm.trans h) (by omega)⟩
  by_cases h7 :
    ((alookup s.cache (pyReplace m.oldf P.sep P.ssep)).isNone = true ∨
      (alookup s.cache (pyReplace m.newf P.sep P.ssep)).isNone = true)
  case pos =>
    have hct : (processMarker P s m).deletecounter = s.deletecounter := by
      simp only [processMarker, hr, Bool.false_eq_true, if_false]
      rw [if_neg h1, if_neg (by simp [h2']), if_neg (by simp [h3]),
        if_neg (by simp [h4]), if_neg (by simp [h5]), if_neg (by simp [h6]),
        if_pos h7]
    exact ⟨Or.inl hct, fun h => absurd (hct.symm.trans h) (by omega)⟩
  by_cases h8 : (parse_filename m.filename).1 < 0
  · have hct : (processMarker P s m).deletecounter = s.deletecounter := by
      simp only [processMarker, hr, Bool.false_eq_true, if_false]
      simp [h1, h2', h3, h4, h5, h6, h8]
      split <;> rfl
    exact ⟨Or.inl hct, fun h => absurd (hct.symm.trans h) (by omega)⟩
  rcases hc : m.copyResult with _ | newuid
  · have hct : (processMarker P s m).deletecounter = s.deletecounter := by
      simp [processMarker, hr, h1, h2', h3, h4, h5, h6, h8, hc]
      split <;> rfl
    exact ⟨Or.inl hct, fun h => absurd (hct.symm.trans h) (by omega)⟩
  by_cases h9 : newuid ≤ 0
  · have hct : (processMarker P s m).deletecounter = s.deletecounter := by
      simp [processMarker, hr, h1, h2', h3, h4, h5, h6, h8, hc, h9]
      split <;> rfl
    exact ⟨Or.inl hct, fun h => absurd (hct.symm.trans h) (by omega)⟩
  have he : processMarker P s m =
      replayMarker P s m (pyReplace m.oldf P.sep P.rsep)
        (pyReplace m.newf P.sep P.rsep)
        (pyReplace m.oldf P.sep P.ssep) (pyReplace m.newf P.sep P.ssep)
        [SyncEvent.localGetfolder m.oldf, SyncEvent.localGetfolder m.newf,
          SyncEvent.remoteGetfolder (pyReplace m.oldf P.sep P.rsep),
          SyncEvent.remoteGetfolder (pyReplace m.newf P.sep P.rsep)]
        ((parse_filename m.filename).1) newuid
        ((parse_filename m.old_filename).2) := by
    have h7' : ¬ (alookup s.cache (pyReplace m.oldf P.sep P.ssep) = none ∨
        alookup s.cache (pyReplace m.newf P.sep P.ssep) = none) := by
      simpa [Option.isNone_iff_eq_none] using h7
    simp [processMarker, hr, h1, h2', h3, h4, h5, h6, h7', h8, hc, h9]
  have hlk : ∀ x ∈
      [SyncEvent.localGetfolder m.oldf, SyncEvent.localGetfolder m.newf,
        SyncEvent.remoteGetfolder (pyReplace m.oldf P.sep P.rsep),
        SyncEvent.remoteGetfolder (pyReplace m.newf P.sep P.rsep)],
      isStatusSave x = false := by
    intro x hx
    simp only [List.mem_cons, List.not_mem_nil, or_false] at hx
    rcases hx with h | h | h | h <;> subst h <;> rfl
  rw [he]
  exact ⟨Or.inr (replayMarker_counter P s m _ _ _ _ _ _ _ _),
    fun _ => ⟨replayMarker_checkpoint P s m _ _ _ _ _ _ _ _,
      replayMarker_nocheckpoint P s m _ _ _ _ _ _ _ _ hlk⟩⟩

set_option maxRecDepth 40000 in
/-- C9 (counterexample to the claim as stated): a run that processes 100
markers, the first of which is skipped because source equals destination.
After all 100 processed markers no checkpoint has occurred: the replay
counter stands at 99 (skipped markers do not count), the dirty set is
non-empty, and not a single status-folder persist event was emitted — so
it is false that after every 100 processed markers every dirty status
folder is persisted and the dirty set cleared. -/
theorem syncmoves_processed_markers_no_checkpoint_counterexample :
    (c9SkipMarker :: List.replicate 99 c9GoodMarker).length = 100
    ∧ c9Run.raised = false
    ∧ c9Run.deletecounter = 99
    ∧ c9Run.dirtySet ≠ []
    ∧ c9Run.events.countP isStatusSave = 0 := by
  decide

theorem syncmoves_checkpoint_characterization_witness :
    ((processMarker ⟨".", ".", ".", ["a", "b"], ["a", "b"]⟩
        ⟨0, [], [("a", []), ("b", [])], [], false⟩
        ⟨"f", "a", "a", "o", "n", true, some 2⟩).deletecounter = 0 ∨
      (processMarker ⟨".", ".", ".", ["a", "b"], ["a", "b"]⟩
        ⟨0, [], [("a", []), ("b", [])], [], false⟩
        ⟨"f", "a", "a", "o", "n", true, some 2⟩).deletecounter = 0 + 1) :=
  (syncmoves_checkpoint_characterization
    ⟨".", ".", ".", ["a", "b"], ["a", "b"]⟩
    ⟨0, [], [("a", []), ("b", [])], [], false⟩
    ⟨"f", "a", "a", "o", "n", true, some 2⟩ rfl).1

end OfflineImap
